import Mathlib

/-!
Shallow embedding of the symptom-severity triage core of `ai_services.py`
(Hospital-Management-System).

Modelling conventions:
- Python strings are Lean `String`; `str.lower` and the regex classes
  `\w` / `\s` are modelled on the character ranges the embedded corpus and
  the inputs of the properties actually use (ASCII letters, digits, `_`,
  whitespace).
- The floating-point arithmetic of the statistical library (TF-IDF and
  multinomial Naive Bayes) is idealized over the real numbers: `log`,
  `exp`, `sqrt` are the exact real functions, and the log-sum-exp
  normalization used by `predict_proba` is written in its exact form
  `exp (jll c) / sum (exp (jll d))`.
- The optional linguistic annotator (spaCy) is an abstract environment
  value `Option Annotator`: `none` means loading it fails (raises) in this
  process, `some f` means it loads and behaves as `f`.
- The orchestrator field `self.model` is `none`/present, modelled by a
  `Bool`; the fitted parameters are functions of the fixed embedded corpus
  and of the normalizer environment, matching the fact that the source
  always trains on the same embedded corpus.
-/

/-- A spaCy-like token: lemma plus stopword / punctuation flags, the three
attributes the source reads from an annotator token. -/
structure SToken where
  lemmaForm : String
  isStop : Bool
  isPunct : Bool

/-- The abstract type of a loaded linguistic annotator: a callable mapping a
(lowercased) text to its token sequence, as `doc = nlp(text.lower())` is used
in `preprocess_text`. -/
def Annotator : Type := String → List SToken

/-- Python regex `\w` (word character) on the modelled character range:
alphanumeric or underscore. -/
def isWordChar (c : Char) : Bool := c.isAlphanum || c = '_'

/-- `str.lower` on the modelled character range: lowercase every character
(character-wise, as Python does on ASCII text). -/
def toLowerStr (s : String) : String := String.mk (s.data.map Char.toLower)

/-- Lexicographic order on character lists (the order `numpy.unique` sorts
strings by, code-point-wise). -/
def charListLt : List Char → List Char → Bool
  | [], [] => false
  | [], _ :: _ => true
  | _ :: _, [] => false
  | a :: as, b :: bs => if a < b then true else if b < a then false else charListLt as bs

/-- Lexicographic order on strings. -/
def strLt (a b : String) : Bool := charListLt a.data b.data

/-- `re.sub(pat, "", text)` for a single-character-class pattern `p`:
delete every character matching `p`, keep the rest in order. -/
def reSubDelete (p : Char → Bool) : List Char → List Char
  | [] => []
  | c :: t => if p c then reSubDelete p t else c :: reSubDelete p t

/-- Embedding of `preprocess_text` (`ai_services.py` lines 117-131), with the
annotator availability made explicit.  With `some f` (spaCy loaded) it
lowercases, drops stopword and punctuation tokens and joins the lemmas with
single spaces; with `none` it lowercases and deletes every character matching
`[^\w\s]` (the regex fallback path). -/
def preprocess_text (env : Option Annotator) (text : String) : String :=
  match env with
  | some f =>
    let doc := f (toLowerStr text)
    let tokens := (doc.filter (fun t => !t.isStop && !t.isPunct)).map (fun t => t.lemmaForm)
    String.intercalate " " tokens
  | none =>
    let lowered := toLowerStr text
    String.mk (reSubDelete (fun c => !(isWordChar c || c.isWhitespace)) lowered.data)

/-- `TRIAGE_TRAINING_DATA` (`ai_services.py` lines 44-84): the embedded lay
training corpus, `(symptoms, severity)` pairs. -/
def TRIAGE_TRAINING_DATA : List (String × String) := [
  ("I have a mild headache", "Low"),
  ("Slight cough for one day", "Low"),
  ("Runny nose and sneezing", "Low"),
  ("Minor cuts and scrapes", "Low"),
  ("Mild sore throat", "Low"),
  ("Slight fever below 38°C", "Low"),
  ("Mild joint pain", "Low"),
  ("Minor skin rash", "Low"),
  ("Persistent headache for several days", "Medium"),
  ("Fever between 38°C and 39°C", "Medium"),
  ("Cough with colored phlegm", "Medium"),
  ("Dehydration with some dizziness", "Medium"),
  ("Persistent vomiting", "Medium"),
  ("Flu symptoms with high fever", "Medium"),
  ("Ear pain with discharge", "Medium"),
  ("Urinary tract infection symptoms", "Medium"),
  ("Severe abdominal pain", "High"),
  ("Difficulty breathing", "High"),
  ("High fever above 39°C", "High"),
  ("Chest pain", "High"),
  ("Severe headache with neck stiffness", "High"),
  ("Sudden vision changes", "High"),
  ("Deep cut requiring stitches", "High"),
  ("Broken bone or suspected fracture", "High"),
  ("Unconsciousness or fainting", "Critical"),
  ("Severe chest pain radiating to arm or jaw", "Critical"),
  ("Inability to breathe", "Critical"),
  ("Severe bleeding that won't stop", "Critical"),
  ("Poisoning or overdose", "Critical"),
  ("Seizure", "Critical"),
  ("Severe burn", "Critical"),
  ("Stroke symptoms like facial drooping", "Critical")]

/-- `MEDICAL_TRAINING_DATA` (`ai_services.py` lines 87-111): the embedded
clinical-phrasing training corpus. -/
def MEDICAL_TRAINING_DATA : List (String × String) := [
  ("Mild rhinitis with nasal discharge", "Low"),
  ("Slight pharyngitis with minimal discomfort", "Low"),
  ("Minor contusions", "Low"),
  ("Localized dermatitis", "Low"),
  ("Moderate pyrexia with myalgia", "Medium"),
  ("Persistent emesis", "Medium"),
  ("Otitis media with effusion", "Medium"),
  ("Uncomplicated cystitis", "Medium"),
  ("Acute dyspnea", "High"),
  ("Severe cephalgia with photophobia", "High"),
  ("Suspected appendicitis", "High"),
  ("Open fracture requiring reduction", "High"),
  ("Syncope with irregular cardiac rhythm", "Critical"),
  ("Acute myocardial infarction", "Critical"),
  ("Status epilepticus", "Critical"),
  ("Cerebrovascular accident with hemiparesis", "Critical")]

/-- `ALL_TRAINING_DATA = TRIAGE_TRAINING_DATA + MEDICAL_TRAINING_DATA`
(`ai_services.py` line 114). -/
def ALL_TRAINING_DATA : List (String × String) :=
  TRIAGE_TRAINING_DATA ++ MEDICAL_TRAINING_DATA

/-- Boolean substring search on character lists: does `n` occur as a
contiguous run inside the second list? -/
def listContainsSub (n : List Char) : List Char → Bool
  | [] => n.isEmpty
  | c :: t => n.isPrefixOf (c :: t) || listContainsSub n t

/-- Boolean substring search on strings (used to state the
disclaimer-presence and word-presence properties). -/
def containsSub (needle hay : String) : Bool :=
  listContainsSub needle.data hay.data

/-- The set of severity strings the external contract allows
(`spec.md` section 6). -/
def validSeverities : List String := ["Low", "Medium", "High", "Critical", "Unknown"]

/-- Insert a string into a sorted duplicate-free list, keeping it sorted and
duplicate-free (ascending lexicographic order). -/
def insertUnique (s : String) : List String → List String
  | [] => [s]
  | h :: t => if s = h then h :: t else if strLt s h then s :: h :: t else h :: insertUnique s t

/-- Sorted list of the distinct elements of a list of strings; models
`numpy.unique`, which the classifier uses to build `classes_`. -/
def sortedUnique (l : List String) : List String :=
  l.foldr insertUnique []

/-- Maximal runs of word characters in a character list (the matches of the
vectorizer token pattern before the length-2 filter); `acc` is the reversed
run currently being scanned. -/
def splitRunsAux (acc : List Char) : List Char → List (List Char)
  | [] => if acc.isEmpty then [] else [acc.reverse]
  | c :: t =>
    if isWordChar c then splitRunsAux (c :: acc) t
    else if acc.isEmpty then splitRunsAux [] t
    else acc.reverse :: splitRunsAux [] t

/-- The tokenizer of `TfidfVectorizer` at its defaults: lowercase, then take
the maximal word-character runs of length at least two. -/
def sklearnTokenize (s : String) : List String :=
  ((splitRunsAux [] (toLowerStr s).data).filter (fun r => 2 ≤ r.length)).map String.mk

/-- The training documents fed to `model.fit`: each corpus symptom text after
`preprocess_text` (`initialize_model`, lines 151-164). -/
def trainDocs (env : Option Annotator) : List String :=
  ALL_TRAINING_DATA.map (fun d => preprocess_text env d.1)

/-- The training labels fed to `model.fit`. -/
def trainLabels : List String :=
  ALL_TRAINING_DATA.map Prod.snd

/-- Number of training documents. -/
def nDocs : Nat := ALL_TRAINING_DATA.length

/-- `classes_` of the fitted classifier: the sorted distinct labels of the
training corpus. -/
def classes : List String := sortedUnique trainLabels

/-- Occurrences of label `c` in the training labels (used for the class
prior). -/
def classCount (c : String) : Nat := trainLabels.count c

/-- Document frequency of token `t` over the training documents. -/
def df (env : Option Annotator) (t : String) : Nat :=
  ((trainDocs env).filter (fun d => t ∈ sklearnTokenize d)).length

/-- `max_features=1000` passed to the vectorizer (`ai_services.py` line 159). -/
def max_features : Nat := 1000

/-- Distinct tokens of the training documents in sorted order (the candidate
vocabulary of the vectorizer). -/
def vocabFull (env : Option Annotator) : List String :=
  sortedUnique (((trainDocs env).map sklearnTokenize).foldr (· ++ ·) [])

/-- The fitted vocabulary.  The corpus yields far fewer than `max_features`
distinct tokens, so the cap never binds; the truncation arm stands for the
library frequency-based selection that is unreachable on this corpus. -/
def vocab (env : Option Annotator) : List String :=
  if (vocabFull env).length ≤ max_features then vocabFull env
  else (vocabFull env).take max_features

/-- Count of token `t` in document `d` under the vectorizer tokenization. -/
def termCount (d t : String) : Nat := (sklearnTokenize d).count t

/-- Smoothed inverse document frequency learned at fit time:
`log((1 + n) / (1 + df)) + 1` (the vectorizer default). -/
noncomputable def idf (env : Option Annotator) (t : String) : ℝ :=
  Real.log ((1 + (nDocs : ℝ)) / (1 + (df env t : ℝ))) + 1

/-- Unnormalized TF-IDF weight of token `t` in document `d`. -/
noncomputable def rawWeight (env : Option Annotator) (d t : String) : ℝ :=
  (termCount d t : ℝ) * idf env t

/-- Euclidean norm of the raw TF-IDF vector of document `d` over the fitted
vocabulary. -/
noncomputable def docNorm (env : Option Annotator) (d : String) : ℝ :=
  Real.sqrt (((vocab env).map (fun t => rawWeight env d t ^ 2)).sum)

/-- L2-normalized TF-IDF weight of token `t` in document `d` (the library
leaves an all-zero row unchanged by dividing by 1). -/
noncomputable def tfidfWeight (env : Option Annotator) (d t : String) : ℝ :=
  rawWeight env d t / (if docNorm env d = 0 then 1 else docNorm env d)

/-- Class log prior of the fitted classifier: `log(count_c / n)`. -/
noncomputable def classLogPrior (c : String) : ℝ :=
  Real.log ((classCount c : ℝ) / (nDocs : ℝ))

/-- Per-class per-token summed feature weight over the transformed training
documents (`feature_count_` of the classifier). -/
noncomputable def featureCount (env : Option Annotator) (c t : String) : ℝ :=
  ((ALL_TRAINING_DATA.filter (fun d => d.2 = c)).map
    (fun d => tfidfWeight env (preprocess_text env d.1) t)).sum

/-- Laplace-smoothed (alpha = 1) per-class token log likelihood
(`feature_log_prob_`). -/
noncomputable def featureLogProb (env : Option Annotator) (c t : String) : ℝ :=
  Real.log ((featureCount env c t + 1) /
    (((vocab env).map (featureCount env c)).sum + ((vocab env).length : ℝ)))

/-- Joint log likelihood of input `text` under class `c`: prior plus the dot
product of the transformed input with the class token log likelihoods. -/
noncomputable def jll (env : Option Annotator) (text c : String) : ℝ :=
  classLogPrior c +
    ((vocab env).map
      (fun t => tfidfWeight env (preprocess_text env text) t * featureLogProb env c t)).sum

/-- Left-to-right scan keeping the first maximum (the semantics of
`numpy.argmax`, which the classifier uses to pick the predicted class):
`best` is replaced only by a strictly larger score. -/
noncomputable def argmaxFrom (f : String → ℝ) (best : String) : List String → String
  | [] => best
  | c :: t => argmaxFrom f (if f best < f c then c else best) t

/-- `model.predict([preprocessed])[0]`: the class of `classes_` with the
first maximal joint log likelihood.  The corpus has four classes, so the
empty arm is unreachable. -/
noncomputable def predictSeverity (env : Option Annotator) (text : String) : String :=
  match classes with
  | [] => "Unknown"
  | a :: t => argmaxFrom (jll env text) a t

/-- Denominator of the class probability vector: the sum over `classes_` of
the exponentiated joint log likelihoods (`predict_proba` computes
`exp (jll - logsumexp jll)`, written here in its exact real form). -/
noncomputable def expSum (env : Option Annotator) (text : String) : ℝ :=
  (classes.map (fun d => Real.exp (jll env text d))).sum

/-- Normalized probability of class `c` for input `text`. -/
noncomputable def probOf (env : Option Annotator) (text c : String) : ℝ :=
  Real.exp (jll env text c) / expSum env text

/-- Maximum of a list of reals, 0 on the empty list (matching `numpy.max`
over a nonempty array in every reachable use). -/
noncomputable def listMax : List ℝ → ℝ
  | [] => 0
  | a :: t => t.foldl max a

/-- `confidence = float(np.max(probabilities))` in the success branch of
`assess_symptoms`. -/
noncomputable def confidenceOf (env : Option Annotator) (text : String) : ℝ :=
  listMax (classes.map (probOf env text))

/-- The output record of `assess_symptoms` (`severity`, `recommendation`,
`confidence` keys of the returned dict). -/
structure AssessmentResult where
  severity : String
  recommendation : String
  confidence : ℝ

/-- `self.confidence_threshold = 0.6` (`ai_services.py` line 136). -/
noncomputable def confidence_threshold : ℝ := 0.6

/-- The fixed low-confidence disclaimer sentence appended by
`generate_recommendation`. -/
def disclaimer : String :=
  "\n\nNote: This is an initial assessment with limited confidence. A healthcare professional should verify this assessment."

/-- The severity-keyed recommendation table of `generate_recommendation`
(lines 223-230), including the `.get` default for unknown severities. -/
def baseRecommendation (severity : String) : String :=
  if severity = "Low" then
    "Your symptoms suggest a non-urgent condition. Rest, hydrate, and monitor symptoms. If they persist for more than 2-3 days or worsen, schedule a regular appointment."
  else if severity = "Medium" then
    "Your symptoms may require medical attention. Schedule an appointment in the next 1-2 days. Monitor for worsening symptoms."
  else if severity = "High" then
    "Your symptoms require prompt medical attention. Please schedule an urgent appointment or visit urgent care within 24 hours."
  else if severity = "Critical" then
    "Your symptoms suggest a potentially life-threatening condition. Seek immediate emergency medical attention or call emergency services."
  else
    "Please consult with a healthcare professional for proper evaluation."

/-- Embedding of `TriageAI.generate_recommendation` (lines 219-237).  The
`symptoms` parameter is accepted, as in the source, and never read. -/
noncomputable def generate_recommendation (severity : String) (confidence : ℝ)
    (symptoms : String) : String :=
  if confidence < confidence_threshold then baseRecommendation severity ++ disclaimer
  else baseRecommendation severity

/-- The fixed result of the no-model (degraded) branch of `assess_symptoms`
(lines 181-186). -/
def degradedResult : AssessmentResult :=
  { severity := "Unknown"
    recommendation := "Error in AI model. Please consult with a healthcare professional directly."
    confidence := 0 }

/-- The fixed result of the per-call exception branch of `assess_symptoms`
(lines 211-217). -/
def inferenceErrorResult : AssessmentResult :=
  { severity := "Unknown"
    recommendation := "An error occurred during assessment. Please consult with a healthcare professional."
    confidence := 0 }

/-- The `try` body of `assess_symptoms` (lines 188-210): preprocess, predict,
take the maximal class probability as confidence, generate the
recommendation.  Every step is total on string input, so no error value is
ever produced; the `Except` codomain records that the source wraps this body
in a handler. -/
noncomputable def tryAssessBody (env : Option Annotator) (text : String) :
    Except Unit AssessmentResult :=
  Except.ok
    { severity := predictSeverity env text
      recommendation := generate_recommendation (predictSeverity env text) (confidenceOf env text) text
      confidence := confidenceOf env text }

/-- Embedding of `TriageAI.assess_symptoms` (lines 171-217).  `hasModel`
models `self.model` being non-`None` (training succeeded); `env` is the
annotator environment used by `preprocess_text`. -/
noncomputable def assess_symptoms (hasModel : Bool) (env : Option Annotator)
    (text : String) : AssessmentResult :=
  if hasModel then
    match tryAssessBody env text with
    | Except.ok r => r
    | Except.error _ => inferenceErrorResult
  else degradedResult

/-- Embedding of the module-level `assess_patient_symptoms` (lines 243-253),
which delegates to the singleton `triage_ai.assess_symptoms`; the singleton
model state is `hasModel` (`false` when the statistical dependency is missing
or training raised, `true` otherwise). -/
noncomputable def assess_patient_symptoms (hasModel : Bool) (env : Option Annotator)
    (text : String) : AssessmentResult :=
  assess_symptoms hasModel env text

/-- One call of `assess_symptoms` together with the model state after the
call: the method reads `self.model` and never assigns it. -/
noncomputable def assessCall (hasModel : Bool) (env : Option Annotator)
    (text : String) : AssessmentResult × Bool :=
  (assess_symptoms hasModel env text, hasModel)

/-- Embedding of `get_nlp_model` (lines 23-37) as a step on the module cache
`_nlp : Option α`.  `envLoad` is the fixed per-process outcome of
`spacy.load`: `none` when it raises (the handler logs and stores `None`),
`some a` when it succeeds.  Result: `(new cache, returned value)`. -/
def get_nlp_model {α : Type} (envLoad : Option α) (cache : Option α) :
    Option α × Option α :=
  match cache with
  | some a => (some a, some a)
  | none => (envLoad, envLoad)

/-- Module cache `_nlp` after `n` calls of `get_nlp_model`, starting from the
initial `None` (line 21). -/
def nlpState {α : Type} (envLoad : Option α) : Nat → Option α
  | 0 => none
  | n + 1 => (get_nlp_model envLoad (nlpState envLoad n)).1

/-- Value returned by the `(n+1)`-st call of `get_nlp_model`. -/
def nlpCallResult {α : Type} (envLoad : Option α) (n : Nat) : Option α :=
  (get_nlp_model envLoad (nlpState envLoad n)).2

/-- Number of successful annotator loads during the first `n` calls: a load
is attempted when the cache is empty, and succeeds when the environment
provides a model. -/
def succLoadCount {α : Type} (envLoad : Option α) : Nat → Nat
  | 0 => 0
  | n + 1 => succLoadCount envLoad n +
      cond ((nlpState envLoad n).isNone && envLoad.isSome) 1 0

/-! ## Helper lemmas -/

lemma lsum_nonneg (l : List ℝ) (h : ∀ x ∈ l, 0 ≤ x) : 0 ≤ l.sum := by
  induction l with
  | nil => simp
  | cons a t ih =>
    simp only [List.sum_cons]
    have ha := h a (List.mem_cons_self a t)
    have ht := ih (fun x hx => h x (List.mem_cons_of_mem a hx))
    linarith

lemma lsum_pos (l : List ℝ) (hne : l ≠ []) (h : ∀ x ∈ l, 0 < x) : 0 < l.sum := by
  cases l with
  | nil => exact absurd rfl hne
  | cons a t =>
    simp only [List.sum_cons]
    have ha := h a (List.mem_cons_self a t)
    have ht := lsum_nonneg t (fun x hx => (h x (List.mem_cons_of_mem a hx)).le)
    linarith

lemma lsingle_le_sum : ∀ (l : List ℝ), (∀ x ∈ l, 0 ≤ x) → ∀ a ∈ l, a ≤ l.sum := by
  intro l
  induction l with
  | nil => intro _ a ha; cases ha
  | cons b t ih =>
    intro h a ha
    simp only [List.sum_cons]
    rcases List.mem_cons.mp ha with h1 | h1
    · subst h1
      have := lsum_nonneg t (fun x hx => h x (List.mem_cons_of_mem _ hx))
      linarith
    · have hb := h b (List.mem_cons_self b t)
      have := ih (fun x hx => h x (List.mem_cons_of_mem _ hx)) a h1
      linarith

lemma lsum_div {α : Type} (l : List α) (g : α → ℝ) (S : ℝ) :
    (l.map (fun x => g x / S)).sum = (l.map g).sum / S := by
  induction l with
  | nil => simp
  | cons a t ih => simp [List.sum_cons, ih, add_div]

lemma lsum_le_length_mul : ∀ (l : List ℝ) (M : ℝ),
    (∀ x ∈ l, x ≤ M) → l.sum ≤ (l.length : ℝ) * M := by
  intro l
  induction l with
  | nil => intro M _; simp
  | cons a t ih =>
    intro M h
    have ha := h a (List.mem_cons_self a t)
    have ht := ih M (fun x hx => h x (List.mem_cons_of_mem _ hx))
    simp only [List.sum_cons, List.length_cons]
    push_cast
    linarith

lemma foldl_max_ge_init : ∀ (t : List ℝ) (a : ℝ), a ≤ t.foldl max a := by
  intro t
  induction t with
  | nil => intro a; simp
  | cons b u ih =>
    intro a
    simp only [List.foldl_cons]
    exact le_trans (le_max_left a b) (ih (max a b))

lemma le_foldl_max : ∀ (t : List ℝ) (a x : ℝ), x ∈ a :: t → x ≤ t.foldl max a := by
  intro t
  induction t with
  | nil =>
    intro a x hx
    have hxa : x = a := by simpa using hx
    subst hxa
    simp
  | cons b u ih =>
    intro a x hx
    simp only [List.foldl_cons]
    rcases List.mem_cons.mp hx with h1 | h1
    · subst h1
      exact le_trans (le_max_left x b) (foldl_max_ge_init u (max x b))
    · rcases List.mem_cons.mp h1 with h2 | h2
      · subst h2
        exact le_trans (le_max_right a x) (foldl_max_ge_init u (max a x))
      · exact ih (max a b) x (List.mem_cons_of_mem _ h2)

lemma foldl_max_le : ∀ (t : List ℝ) (a M : ℝ),
    a ≤ M → (∀ x ∈ t, x ≤ M) → t.foldl max a ≤ M := by
  intro t
  induction t with
  | nil => intro a M ha _; simpa using ha
  | cons b u ih =>
    intro a M ha h
    simp only [List.foldl_cons]
    exact ih (max a b) M (max_le ha (h b (List.mem_cons_self b u)))
      (fun x hx => h x (List.mem_cons_of_mem _ hx))

lemma argmaxFrom_mem : ∀ (l : List String) (f : String → ℝ) (b : String),
    argmaxFrom f b l ∈ b :: l := by
  intro l
  induction l with
  | nil => intro f b; simp [argmaxFrom]
  | cons c t ih =>
    intro f b
    simp only [argmaxFrom]
    have h := ih f (if f b < f c then c else b)
    rcases List.mem_cons.mp h with h1 | h1
    · rw [h1]
      split
      · exact List.mem_cons_of_mem _ (List.mem_cons_self c t)
      · exact List.mem_cons_self b _
    · exact List.mem_cons_of_mem _ (List.mem_cons_of_mem _ h1)

lemma isPrefixOf_self : ∀ (l : List Char), l.isPrefixOf l = true := by
  intro l
  induction l with
  | nil => rfl
  | cons c t ih => simp [List.isPrefixOf, ih]

lemma listContainsSub_append_self : ∀ (pre n : List Char),
    listContainsSub n (pre ++ n) = true := by
  intro pre
  induction pre with
  | nil =>
    intro n
    cases n with
    | nil => rfl
    | cons c t => simp [listContainsSub, isPrefixOf_self]
  | cons p ps ih =>
    intro n
    show listContainsSub n (p :: (ps ++ n)) = true
    simp only [listContainsSub, ih, Bool.or_true]

lemma string_data_append (a b : String) : (a ++ b).data = a.data ++ b.data := rfl

lemma containsSub_append_self (pre s : String) : containsSub s (pre ++ s) = true := by
  show listContainsSub s.data (pre ++ s).data = true
  rw [string_data_append]
  exact listContainsSub_append_self pre.data s.data

lemma disclaimer_not_in_base : ∀ sev : String,
    containsSub disclaimer (baseRecommendation sev) = false := by
  intro sev
  unfold baseRecommendation
  repeat' split
  all_goals decide

lemma reSubDelete_eq_filter (p : Char → Bool) :
    ∀ l : List Char, reSubDelete p l = l.filter (fun c => !(p c)) := by
  intro l
  induction l with
  | nil => rfl
  | cons c t ih => cases hp : p c <;> simp [reSubDelete, hp, ih]

lemma classes_eq : classes = ["Critical", "High", "Low", "Medium"] := by decide

lemma expSum_pos (env : Option Annotator) (text : String) : 0 < expSum env text := by
  unfold expSum
  apply lsum_pos
  · rw [classes_eq]; simp
  · intro x hx
    rcases List.mem_map.mp hx with ⟨d, _, rfl⟩
    exact Real.exp_pos _

lemma probOf_nonneg (env : Option Annotator) (text c : String) : 0 ≤ probOf env text c := by
  unfold probOf
  exact div_nonneg (Real.exp_pos _).le (expSum_pos env text).le

lemma probOf_le_one (env : Option Annotator) (text c : String) (hc : c ∈ classes) :
    probOf env text c ≤ 1 := by
  unfold probOf
  rw [div_le_one (expSum_pos env text)]
  unfold expSum
  apply lsingle_le_sum
  · intro x hx
    rcases List.mem_map.mp hx with ⟨d, _, rfl⟩
    exact (Real.exp_pos _).le
  · exact List.mem_map_of_mem _ hc

lemma sum_probOf (env : Option Annotator) (text : String) :
    (classes.map (probOf env text)).sum = 1 := by
  have h : classes.map (probOf env text) =
      classes.map (fun c => Real.exp (jll env text c) / expSum env text) := rfl
  rw [h, lsum_div]
  show expSum env text / expSum env text = 1
  exact div_self (ne_of_gt (expSum_pos env text))

lemma confidenceOf_bounds (env : Option Annotator) (text : String) :
    0 ≤ confidenceOf env text ∧ confidenceOf env text ≤ 1 ∧
      1 / 4 ≤ confidenceOf env text := by
  have hmap : classes.map (probOf env text) =
      [probOf env text "Critical", probOf env text "High",
        probOf env text "Low", probOf env text "Medium"] := by
    rw [classes_eq]; rfl
  have hb : ∀ x ∈ classes.map (probOf env text), 0 ≤ x ∧ x ≤ 1 := by
    intro x hx
    rcases List.mem_map.mp hx with ⟨c, hcmem, rfl⟩
    exact ⟨probOf_nonneg env text c, probOf_le_one env text c hcmem⟩
  have hsum := sum_probOf env text
  have hmemC : "Critical" ∈ classes := by rw [classes_eq]; simp
  have hmemH : "High" ∈ classes := by rw [classes_eq]; simp
  have hmemL : "Low" ∈ classes := by rw [classes_eq]; simp
  have hmemM : "Medium" ∈ classes := by rw [classes_eq]; simp
  have h1C := probOf_le_one env text "Critical" hmemC
  have h1H := probOf_le_one env text "High" hmemH
  have h1L := probOf_le_one env text "Low" hmemL
  have h1M := probOf_le_one env text "Medium" hmemM
  have hconf : confidenceOf env text =
      [probOf env text "High", probOf env text "Low",
        probOf env text "Medium"].foldl max (probOf env text "Critical") := by
    unfold confidenceOf
    rw [hmap]
    exact rfl
  refine ⟨?_, ?_, ?_⟩
  · rw [hconf]
    exact le_trans (probOf_nonneg env text "Critical") (foldl_max_ge_init _ _)
  · rw [hconf]
    apply foldl_max_le _ _ _ h1C
    intro x hx
    simp only [List.mem_cons, List.not_mem_nil, or_false] at hx
    rcases hx with h | h | h <;> rw [h]
    · exact h1H
    · exact h1L
    · exact h1M
  · have hle : ∀ x ∈ [probOf env text "Critical", probOf env text "High",
        probOf env text "Low", probOf env text "Medium"],
        x ≤ [probOf env text "High", probOf env text "Low",
          probOf env text "Medium"].foldl max (probOf env text "Critical") := by
      intro x hx
      exact le_foldl_max _ _ x hx
    have h4 := lsum_le_length_mul _ _ hle
    rw [hmap] at hsum
    rw [hsum] at h4
    simp only [List.length_cons, List.length_nil] at h4
    push_cast at h4
    rw [hconf]
    linarith

lemma predictSeverity_mem (env : Option Annotator) (text : String) :
    predictSeverity env text ∈ classes := by
  unfold predictSeverity
  rw [classes_eq]
  exact argmaxFrom_mem ["High", "Low", "Medium"] (jll env text) "Critical"

lemma mem_classes_valid (s : String) (h : s ∈ classes) : s ∈ validSeverities := by
  rw [classes_eq] at h
  fin_cases h <;> decide

lemma nlpState_none_env {α : Type} : ∀ n : Nat, nlpState (none : Option α) n = none := by
  intro n
  induction n with
  | zero => rfl
  | succ m ih =>
    show (get_nlp_model none (nlpState (none : Option α) m)).1 = none
    rw [ih]
    rfl

lemma nlpState_some_succ {α : Type} (a : α) : ∀ n : Nat, nlpState (some a) (n + 1) = some a := by
  intro n
  induction n with
  | zero => rfl
  | succ m ih =>
    show (get_nlp_model (some a) (nlpState (some a) (m + 1))).1 = some a
    rw [ih]
    rfl

lemma nlpCallResult_some {α : Type} (a : α) : ∀ n, nlpCallResult (some a) n = some a := by
  intro n
  cases n with
  | zero => rfl
  | succ m =>
    show (get_nlp_model (some a) (nlpState (some a) (m + 1))).2 = some a
    rw [nlpState_some_succ]
    rfl

lemma nlpCallResult_none {α : Type} : ∀ n, nlpCallResult (none : Option α) n = none := by
  intro n
  show (get_nlp_model none (nlpState (none : Option α) n)).2 = none
  rw [nlpState_none_env]
  rfl

lemma succLoadCount_none {α : Type} : ∀ n, succLoadCount (none : Option α) n = 0 := by
  intro n
  induction n with
  | zero => rfl
  | succ m ih =>
    show succLoadCount (none : Option α) m +
      cond ((nlpState (none : Option α) m).isNone && (none : Option α).isSome) 1 0 = 0
    rw [ih, nlpState_none_env]
    rfl

lemma succLoadCount_some {α : Type} (a : α) : ∀ n, succLoadCount (some a) n ≤ 1 := by
  intro n
  induction n with
  | zero => exact Nat.zero_le 1
  | succ m ih =>
    cases m with
    | zero => exact Nat.le_refl 1
    | succ k =>
      have h : succLoadCount (some a) (k + 2) = succLoadCount (some a) (k + 1) := by
        show succLoadCount (some a) (k + 1) +
          cond ((nlpState (some a) (k + 1)).isNone && (some a).isSome) 1 0 = _
        rw [nlpState_some_succ]
        rfl
      rw [h]
      exact ih

/-! ## Claim theorems -/

/-- C1: Totality of assessment.  For every model state, annotator
environment and input string (the empty string and arbitrary unicode text
included), `assess_patient_symptoms` is a total function returning a
well-formed result: its severity is one of Low, Medium, High, Critical,
Unknown and its confidence lies in the interval from 0 to 1; being a total
Lean function, it raises nothing to the caller. -/
theorem C1_assess_total (hasModel : Bool) (env : Option Annotator) (text : String) :
    (assess_patient_symptoms hasModel env text).severity ∈ validSeverities ∧
    0 ≤ (assess_patient_symptoms hasModel env text).confidence ∧
    (assess_patient_symptoms hasModel env text).confidence ≤ 1 := by
  cases hasModel with
  | false =>
    have h : assess_patient_symptoms false env text = degradedResult := rfl
    rw [h]
    refine ⟨by decide, le_refl 0, ?_⟩
    show (0 : ℝ) ≤ 1
    norm_num
  | true =>
    have h : assess_patient_symptoms true env text =
        { severity := predictSeverity env text
          recommendation := generate_recommendation (predictSeverity env text)
            (confidenceOf env text) text
          confidence := confidenceOf env text } := rfl
    rw [h]
    have hb := confidenceOf_bounds env text
    exact ⟨mem_classes_valid _ (predictSeverity_mem env text), hb.1, hb.2.1⟩

/-- C2: Degraded fallback.  When the orchestrator holds no model (the
statistical dependency is disabled or training failed), `assess_symptoms`
returns, for every annotator environment and every input, exactly severity
Unknown, confidence 0.0 and the fixed error recommendation string. -/
theorem C2_degraded_fallback (env : Option Annotator) (text : String) :
    assess_symptoms false env text =
      { severity := "Unknown"
        recommendation := "Error in AI model. Please consult with a healthcare professional directly."
        confidence := 0 } := rfl

/-- C3: Disclaimer gating.  For every severity label, every confidence value
and every symptoms argument, the recommendation returned by
`generate_recommendation` contains the fixed disclaimer sentence exactly when
the confidence is strictly below the 0.6 threshold. -/
theorem C3_disclaimer_gating (severity : String) (confidence : ℝ) (symptoms : String) :
    containsSub disclaimer (generate_recommendation severity confidence symptoms) = true ↔
      confidence < 0.6 := by
  unfold generate_recommendation
  by_cases h : confidence < confidence_threshold
  · rw [if_pos h, containsSub_append_self]
    constructor
    · intro _
      exact h
    · intro _
      rfl
  · rw [if_neg h, disclaimer_not_in_base severity]
    constructor
    · intro hfalse
      simp at hfalse
    · intro hlt
      exact absurd hlt h

/-- Witness for C3 at a concrete severity, confidence and symptoms text. -/
theorem C3_disclaimer_gating_witness :
    containsSub disclaimer (generate_recommendation "Low" 0 "chest pain") = true ↔
      (0 : ℝ) < 0.6 :=
  C3_disclaimer_gating "Low" 0 "chest pain"

/-- C5: Confidence bound.  In the success branch (model present), the
returned confidence is the maximum of the normalized class probabilities, and
is at least 1/4, since the four class probabilities sum to 1. -/
theorem C5_confidence_bound (env : Option Annotator) (text : String) :
    (assess_symptoms true env text).confidence = listMax (classes.map (probOf env text)) ∧
    1 / 4 ≤ (assess_symptoms true env text).confidence := by
  have h : (assess_symptoms true env text).confidence = confidenceOf env text := rfl
  rw [h]
  exact ⟨rfl, (confidenceOf_bounds env text).2.2⟩

/-- C6: Inference determinism.  A call of `assess_symptoms` leaves the model
state unchanged, and a second call on the same text from the resulting state
returns the identical result: inference has no hidden randomness or
call-order dependence. -/
theorem C6_inference_deterministic (hasModel : Bool) (env : Option Annotator) (text : String) :
    (assessCall hasModel env text).2 = hasModel ∧
    (assessCall (assessCall hasModel env text).2 env text).1 = (assessCall hasModel env text).1 :=
  ⟨rfl, rfl⟩

/-- C7: Normalizer regex fallback.  With the annotator unavailable,
`preprocess_text` equals the lower-cased input with every character that is
neither a word character nor whitespace removed (whitespace kept in place);
in particular the sample input is lower-cased, punctuation-stripped and
contains the word headache. -/
theorem C7_regex_fallback (text : String) :
    preprocess_text none text =
      String.mk ((toLowerStr text).data.filter (fun c => isWordChar c || c.isWhitespace)) ∧
    preprocess_text none "I HAVE a Headache!!" = "i have a headache" ∧
    containsSub "headache" (preprocess_text none "I HAVE a Headache!!") = true := by
  refine ⟨?_, by decide, by decide⟩
  show String.mk (reSubDelete (fun c => !(isWordChar c || c.isWhitespace)) (toLowerStr text).data) = _
  rw [reSubDelete_eq_filter]
  simp only [Bool.not_not]

/-- C8: Annotator load-at-most-once.  Over every sequence of calls of
`get_nlp_model` in one process (any fixed load outcome `envLoad`), the
annotator is successfully loaded at most once, and once a call has returned a
loaded annotator, every later call finds it cached (the cache is non-empty,
so no further load is attempted) and returns the same value.  A failed load
is stored as an empty cache and never raised (the step function is total). -/
theorem C8_annotator_load_once {α : Type} (envLoad : Option α) (n : Nat) :
    succLoadCount envLoad n ≤ 1 ∧
    (∀ i a, nlpCallResult envLoad i = some a → ∀ j, i < j →
      nlpState envLoad j = some a ∧ nlpCallResult envLoad j = some a) := by
  cases envLoad with
  | none =>
    refine ⟨by rw [succLoadCount_none]; exact Nat.zero_le 1, ?_⟩
    intro i a hi
    rw [nlpCallResult_none] at hi
    cases hi
  | some b =>
    refine ⟨succLoadCount_some b n, ?_⟩
    intro i a hi j hij
    rw [nlpCallResult_some] at hi
    have ha : a = b := (Option.some.inj hi).symm
    subst ha
    cases j with
    | zero => exact absurd hij (Nat.not_lt_zero i)
    | succ m => exact ⟨nlpState_some_succ a m, nlpCallResult_some a (m + 1)⟩

/-- Witness for C8 on a concrete environment and call trace. -/
theorem C8_annotator_load_once_witness :
    succLoadCount (some 0) 3 ≤ 1 ∧
    nlpState (some 0) 2 = some 0 ∧ nlpCallResult (some 0) 2 = some 0 := by
  have h := C8_annotator_load_once (some (0 : Nat)) 3
  have h2 := h.2 0 0 rfl 2 (by decide)
  exact ⟨h.1, h2.1, h2.2⟩

/-- C9: Recommendation noninterference in the symptoms argument: for every
severity and confidence, any two symptom strings give the same output of
`generate_recommendation` — the symptoms text is never read. -/
theorem C9_recommendation_noninterference (severity : String) (confidence : ℝ)
    (s1 s2 : String) :
    generate_recommendation severity confidence s1 =
      generate_recommendation severity confidence s2 := rfl

/-- C10: The two failure branches of `assess_symptoms` return different fixed
recommendation strings — the degraded (no-model) branch and the per-call
inference-exception branch — both with severity Unknown and confidence 0. -/
theorem C10_error_branch_strings (env : Option Annotator) (text : String) :
    assess_symptoms false env text = degradedResult ∧
    degradedResult.severity = "Unknown" ∧ degradedResult.confidence = 0 ∧
    inferenceErrorResult.severity = "Unknown" ∧ inferenceErrorResult.confidence = 0 ∧
    degradedResult.recommendation =
      "Error in AI model. Please consult with a healthcare professional directly." ∧
    inferenceErrorResult.recommendation =
      "An error occurred during assessment. Please consult with a healthcare professional." ∧
    degradedResult.recommendation ≠ inferenceErrorResult.recommendation :=
  ⟨rfl, rfl, rfl, rfl, rfl, rfl, rfl, by decide⟩
